import Mathlib

/-!
Shallow embedding of `cmd/labctl/command/common.go` (and the debug command
actions) of the p2plab repository.  Go functions that mutate the shared
`cli.Context` / `App.Metadata` become explicit state-passing functions on
`InvState`; Go `error` returns become `Option Err` (none = nil error);
calls into remote services and the jaeger library are parameterised by
oracles recording their results.
-/

/-- Sinks a logger can write to: `zerolog.ConsoleWriter{Out: os.Stderr}` for
the "console" log-writer, bare `os.Stderr` for "json". -/
inductive Sink where
  | consoleStderr
  | stderr
  deriving DecidableEq, Repr

/-- Log levels of zerolog (the set accepted by `zerolog.ParseLevel`). -/
inductive Level where
  | traceLvl
  | debugLvl
  | infoLvl
  | warnLvl
  | errorLvl
  | fatalLvl
  | panicLvl
  | noLevel
  | disabled
  deriving DecidableEq, Repr

/-- Distinct error values the embedded code can produce.  Each constructor
stands for one concrete Go error: `unknownLogWriter` for
`errors.Wrapf(errdefs.ErrInvalidArgument, "unknown log writer %q", w)`,
`unknownLevel` for the error of `zerolog.ParseLevel`, `outputNotValid` for
`fmt.Errorf("output %q is not valid", output)`, `taskArgs` for
`errors.New("task type and subject must be provided")`, `labappUnhealthy`
for `errors.New("labapp unhealthy")`, and `remote` for errors coming back
from remote calls or arbitrary hook failures (oracle-supplied). -/
inductive Err where
  | unknownLogWriter (w : String)
  | unknownLevel (s : String)
  | outputNotValid (o : String)
  | taskArgs
  | labappUnhealthy
  | remote (msg : String)
  deriving DecidableEq, Repr

/-- The spec's `InvalidArgument` taxonomy class: malformed CLI input.
Covers the run-task positional-argument error and the printer's
unknown-output error. -/
def isInvalidArgumentClass : Err → Bool
  | .taskArgs => true
  | .outputNotValid _ => true
  | _ => false

/-- The spec's `ConfigurationError` taxonomy class: bad flag/env values
rejected while building the logger. -/
def isConfigurationErrorClass : Err → Bool
  | .unknownLogWriter _ => true
  | .unknownLevel _ => true
  | _ => false

/-- The global CLI flags read by the lifecycle hooks
(`log-writer`, `log-level`, `output`). -/
structure Config where
  logWriter : String
  logLevel : String
  output : String
  deriving DecidableEq, Repr

/-- A structured logger: `zerolog.New(out).Level(level)` is determined by
its output sink and its level. -/
structure Logger where
  sink : Sink
  level : Level
  deriving DecidableEq, Repr

/-- Models `zerolog.ParseLevel`: the exact strings it accepts, everything
else is a parse error (`none`). -/
def parseLevel : String → Option Level
  | "trace" => some .traceLvl
  | "debug" => some .debugLvl
  | "info" => some .infoLvl
  | "warn" => some .warnLvl
  | "error" => some .errorLvl
  | "fatal" => some .fatalLvl
  | "panic" => some .panicLvl
  | "" => some .noLevel
  | "disabled" => some .disabled
  | _ => none

/-- First stage of `newLogger` (common.go:186-207): the switch on the
`log-writer` flag choosing the output sink — "console" or "json",
anything else is the errdefs.ErrInvalidArgument-wrapped error. -/
def writerSink (w : String) : Except Err Sink :=
  if w = "console" then .ok .consoleStderr
  else if w = "json" then .ok .stderr
  else .error (.unknownLogWriter w)

/-- Second stage of `newLogger`: with the sink chosen, parse the level and
build the logger, returning it with the writer. -/
def newLogger (cfg : Config) : Except Err (Logger × Sink) :=
  match writerSink cfg.logWriter with
  | .error e => .error e
  | .ok out =>
      match parseLevel cfg.logLevel with
      | none => .error (.unknownLevel cfg.logLevel)
      | some lv => .ok ({ sink := out, level := lv }, out)

/-- Values stored in `App.Metadata`: the execution context published under
"context" (carrying the bound logger and the tracing span), the printer
published under "printer", and the HTTP client published under "client". -/
inductive CapValue where
  | ctxVal (lg : Logger) (hasSpan : Bool)
  | printerUnix
  | printerJSON
  | clientVal (withRequestLogging : Bool)
  deriving DecidableEq, Repr

/-- `App.Metadata` is a plain Go map keyed by string; modelled as an
association list where assignment shadows (overwrites) earlier entries. -/
def Metadata := List (String × CapValue)

instance : DecidableEq Metadata := fun a b => List.hasDecEq a b

/-- Go map assignment `Metadata[k] = v`: always succeeds, overwriting any
existing entry for `k`. -/
def metaSet (m : Metadata) (k : String) (v : CapValue) : Metadata :=
  (k, v) :: m

/-- Go map read `Metadata[k]`. -/
def metaGet (m : Metadata) (k : String) : Option CapValue :=
  List.lookup k m

/-- The observable state of one invocation: the CLI flag values, the
`App.Metadata` map, whether the closed-over `span` variable is non-nil,
and counters for the teardown effects (`span.Finish()` calls and
`closer.Close()` calls). -/
structure InvState where
  cfg : Config
  meta : Metadata
  spanStarted : Bool
  spanFinishCount : Nat
  closerCloseCount : Nat
  deriving DecidableEq

/-- A `cli.BeforeFunc`/`cli.AfterFunc` body: reads and mutates the shared
state and returns a Go error (`none` = nil). -/
def BHook := InvState → InvState × Option Err

/-- Running a possibly-nil Go hook: a nil hook does nothing. -/
def runOptHook (h : Option BHook) (s : InvState) : InvState × Option Err :=
  match h with
  | none => (s, none)
  | some f => f s

/-- Embeds `joinBefore` (common.go:135-149): loop over the hooks, skip the
nil ones, run each in order, and return at the first non-nil error
(mutations made so far persist because they live in the shared state). -/
def joinBeforeRun : List (Option BHook) → InvState → InvState × Option Err
  | [], s => (s, none)
  | none :: rest, s => joinBeforeRun rest s
  | some f :: rest, s =>
      match f s with
      | (s', some e) => (s', some e)
      | (s', none) => joinBeforeRun rest s'

/-- The closure returned by `joinBefore`. -/
def joinBefore (fns : List (Option BHook)) : BHook :=
  fun s => joinBeforeRun fns s

/-- Sequential composition of two hook bodies, fail-fast: run `a`; if it
errors stop with its error (and its state), otherwise run `b` on the
resulting state.  This is how the cli runtime chains a before hook with
the command body, and how `joinBefore` chains sub-chains. -/
def hookSeq (a b : BHook) : BHook :=
  fun s =>
    match a s with
    | (t, some e) => (t, some e)
    | (t, none) => b t

/-- Embeds the new before hook installed by `AttachAppContext`
(common.go:54-74), minus the wrapping of the pre-existing hook: start a
span named after the subcommand (setting the closed-over `span` variable)
and log the command line, then build the logger (returning its error if
construction fails — note the span has already been started at that
point), then publish the execution context under `Metadata["context"]`. -/
def tracingBefore (_name : String) : BHook :=
  fun s =>
    let s1 := { s with spanStarted := true }
    match newLogger s.cfg with
    | .error e => (s1, some e)
    | .ok (lg, _w) =>
        ({ s1 with meta := metaSet s1.meta "context" (.ctxVal lg true) }, none)

/-- Embeds the closure assigned to `Subcommands[j].Before`
(common.go:52-75): if the captured pre-existing before hook is non-nil,
run it first and return its error if any; otherwise (or on its success)
run the new tracing/logging hook. -/
def wrapBefore (name : String) (old : Option BHook) : BHook :=
  fun s =>
    match old with
    | none => tracingBefore name s
    | some f =>
        match f s with
        | (s', some e) => (s', some e)
        | (s', none) => tracingBefore name s'

/-- The teardown body (common.go:87-90): finish the span if one was
started, then close the tracing reporter, returning `closer.Close()`'s
result (`closeRes`). -/
def teardownStep (closeRes : Option Err) (s : InvState) : InvState × Option Err :=
  let s1 := if s.spanStarted then { s with spanFinishCount := s.spanFinishCount + 1 } else s
  ({ s1 with closerCloseCount := s1.closerCloseCount + 1 }, closeRes)

/-- Embeds the closure assigned to `app.After` (common.go:80-91): if the
captured pre-existing after hook is non-nil and returns an error, return
that error immediately (the teardown is NOT reached); otherwise run the
teardown. -/
def wrappedAfter (after : Option BHook) (closeRes : Option Err) : BHook :=
  fun s =>
    match after with
    | none => teardownStep closeRes s
    | some f =>
        match f s with
        | (s', some e) => (s', some e)
        | (s', none) => teardownStep closeRes s'

/-- Models the urfave/cli (v1) invocation of one leaf command: the before
hook runs first; the command body (Action) runs only if the before hook
returned nil; the deferred After hook then runs exactly once in every
case.  Returns the final state, the before/body error, and the After
hook's error separately (cli merges them into a MultiError; the claims
here only concern the teardown, so the pair is kept explicit). -/
def runInvocation (before body after : BHook) (s : InvState) :
    InvState × Option Err × Option Err :=
  match before s with
  | (s1, some e) =>
      let (s2, ea) := after s1
      (s2, some e, ea)
  | (s1, none) =>
      let (s2, e2) := body s1
      let (s3, ea) := after s2
      (s3, e2, ea)

/-- A leaf subcommand node of the cli tree: its name and its (possibly
nil) before hook. -/
structure SubCmd where
  name : String
  before : Option BHook

/-- A top-level command node: its own before hook (which
`AttachAppContext` never touches) and its subcommands. -/
structure Cmd where
  name : String
  before : Option BHook
  subcommands : List SubCmd

/-- The `cli.App`: top-level before/after hooks and the command tree. -/
structure App where
  before : Option BHook
  after : Option BHook
  commands : List Cmd

/-- Embeds `AttachAppContext` (common.go:45-92): for every subcommand of
every command, replace its before hook by the wrapped one; replace the
app's after hook by the wrapped teardown.  `closeRes` is the result
`closer.Close()` will give at teardown time. -/
def AttachAppContext (closeRes : Option Err) (app : App) : App :=
  { app with
    commands := app.commands.map fun cmd =>
      { cmd with
        subcommands := cmd.subcommands.map fun sc =>
          { sc with before := some (wrapBefore sc.name sc.before) } },
    after := some (wrappedAfter app.after closeRes) }

/-- Total number of subcommand nodes in the tree (the N of the spec). -/
def totalSubcommands (app : App) : Nat :=
  (app.commands.map fun cmd => cmd.subcommands.length).sum

/-- Embeds the printer before hook (common.go:95-110): switch on the
`output` flag; "unix" and "json" publish the corresponding printer under
`Metadata["printer"]`; any other value returns the not-valid error
without publishing anything. -/
def printerHook : BHook :=
  fun s =>
    if s.cfg.output = "unix" then
      ({ s with meta := metaSet s.meta "printer" .printerUnix }, none)
    else if s.cfg.output = "json" then
      ({ s with meta := metaSet s.meta "printer" .printerJSON }, none)
    else
      (s, some (.outputNotValid s.cfg.output))

/-- Embeds `AttachAppPrinter` (common.go:94-111): chain the existing
app-level before hook with the printer hook via `joinBefore`. -/
def AttachAppPrinter (app : App) : App :=
  { app with before := some (joinBefore [app.before, some printerHook]) }

/-- Go map assignment plus a nil error result, i.e. what "Set a
capability" amounts to in this code (`c.App.Metadata[key] = value`):
it can never fail. -/
def setCapability (s : InvState) (k : String) (v : CapValue) :
    InvState × Option Err :=
  ({ s with meta := metaSet s.meta k v }, none)

/-- Result of an unchecked Go type assertion `m[k].(T)`: either the stored
value of the expected shape, or a runtime panic. -/
inductive GetCtxResult where
  | ok (lg : Logger) (hasSpan : Bool)
  | panicked
  deriving DecidableEq, Repr

/-- Embeds `CommandContext` (common.go:151-153):
`c.App.Metadata["context"].(context.Context)` — panics when the key is
absent or holds a value of another type. -/
def CommandContext (m : Metadata) : GetCtxResult :=
  match metaGet m "context" with
  | some (.ctxVal lg sp) => .ok lg sp
  | some _ => .panicked
  | none => .panicked

/-- The tracer `getTracer` can return: the `opentracing.NoopTracer{}` or a
jaeger tracer whose remote reporter ships to the given collector
address. -/
inductive TracerKind where
  | noop
  | jaegerRemote (collectorAddr : String)
  deriving DecidableEq, Repr

/-- The closer paired with the tracer: the local `nopCloser` or the jaeger
tracer's closer (backed by the remote reporter/UDP transport). -/
inductive CloserKind where
  | nopCloser
  | remoteReporterCloser
  deriving DecidableEq, Repr

/-- Outcome of tracer construction: a tracer/closer pair, or a process
abort via `panic(err)`. -/
inductive TracerInit where
  | ok (t : TracerKind) (c : CloserKind)
  | panicked (msg : String)
  deriving DecidableEq, Repr

/-- Embeds `getTracer` (common.go:163-178).  `jaegerTraceEnv` is the value
of `os.Getenv("JAEGER_TRACE")` (empty when the variable is unset);
`udpNew` is an oracle for `jaeger.NewUDPTransport(addr, 0)` (error message
on failure).  A non-empty address builds the UDP transport — panicking on
failure — and returns the jaeger tracer with its remote reporter;
otherwise the no-op tracer and the no-op closer are returned. -/
def getTracer (udpNew : String → Except String Unit) (jaegerTraceEnv : String) :
    TracerInit :=
  if jaegerTraceEnv ≠ "" then
    match udpNew jaegerTraceEnv with
    | .error e => .panicked e
    | .ok _ => .ok (.jaegerRemote jaegerTraceEnv) .remoteReporterCloser
  else
    .ok .noop .nopCloser

/-- `Close()` on the closer returned by `getTracer`: the repo's
`nopCloser.Close` (common.go:182-184) returns nil; the jaeger closer's
result is oracle-supplied (`remoteCloseRes`). -/
def closerClose (remoteCloseRes : Option Err) : CloserKind → Option Err
  | .nopCloser => none
  | .remoteReporterCloser => remoteCloseRes

/-- Whether a tracer kind ships reports over the network: the
`NoopTracer` performs no I/O, the jaeger tracer reports to its
collector. -/
def tracerMakesNetworkCalls : TracerKind → Bool
  | .noop => false
  | .jaegerRemote _ => true

/-- The remote calls `updateAgentAction` can issue, in the order the code
makes them. -/
inductive Call where
  | resolveAgent
  | update
  | resolveApp
  | healthcheck
  deriving DecidableEq, Repr

/-- Oracle results for the collaborators of `updateAgentAction`:
`none` means the resolve/update step succeeded; `healthRes` is the boolean
`Healthcheck` returns (it never errors). -/
structure UpdateEnv where
  resolveAgentRes : Option Err
  updateRes : Option Err
  resolveAppRes : Option Err
  healthRes : Bool
  deriving DecidableEq, Repr

/-- Embeds `updateAgentAction` (debug.go): resolve the Agent (fail fast),
call `Update` (fail fast), resolve the App (fail fast), call
`Healthcheck`; true logs "Labapp healthy" and returns nil, false returns
`errors.New("labapp unhealthy")`.  Returns the trace of steps performed
together with the handler's error. -/
def updateAgentAction (env : UpdateEnv) : List Call × Option Err :=
  match env.resolveAgentRes with
  | some e => ([.resolveAgent], some e)
  | none =>
      match env.updateRes with
      | some e => ([.resolveAgent, .update], some e)
      | none =>
          match env.resolveAppRes with
          | some e => ([.resolveAgent, .update, .resolveApp], some e)
          | none =>
              if env.healthRes then
                ([.resolveAgent, .update, .resolveApp, .healthcheck], none)
              else
                ([.resolveAgent, .update, .resolveApp, .healthcheck],
                  some .labappUnhealthy)

/-- A task dispatched to a labapp (`metadata.Task`): type and subject,
built from the two positional arguments. -/
structure LabTask where
  type : String
  subject : String
  deriving DecidableEq, Repr

/-- The steps `runTaskAction` can take: resolving the App handle and the
remote `Run` call carrying the dispatched task. -/
inductive RCall where
  | resolveApp
  | run (t : LabTask)
  deriving DecidableEq, Repr

/-- Oracle inputs for `runTaskAction`: the positional arguments
(`c.Args()`, so `c.NArg() = args.length`), the App-resolution result and
the remote `Run` result. -/
structure RunTaskEnv where
  args : List String
  resolveAppRes : Option Err
  runRes : Option Err
  deriving DecidableEq, Repr

/-- Embeds `runTaskAction` (debug.go): reject unless exactly two
positional arguments were given (before resolving anything), then resolve
the App (fail fast), then dispatch `Run` with the Task built from the two
arguments, returning its error. -/
def runTaskAction (env : RunTaskEnv) : List RCall × Option Err :=
  if env.args.length ≠ 2 then
    ([], some .taskArgs)
  else
    match env.resolveAppRes with
    | some e => ([.resolveApp], some e)
    | none =>
        let t : LabTask := { type := env.args.getD 0 "", subject := env.args.getD 1 "" }
        ([.resolveApp, .run t], env.runRes)

/-- A concrete starting state used to instantiate the lifecycle theorems:
valid flags, empty metadata, no span, no teardown effects yet. -/
def initSt : InvState :=
  { cfg := { logWriter := "console", logLevel := "info", output := "unix" },
    meta := [], spanStarted := false, spanFinishCount := 0,
    closerCloseCount := 0 }

/-- Concrete sample hook that publishes the unix printer and succeeds. -/
def exOkHook : BHook :=
  fun s => ({ s with meta := metaSet s.meta "printer" .printerUnix }, none)

/-- Concrete sample hook that fails. -/
def exFailHook : BHook :=
  fun s => (s, some (.remote "hook failed"))

/-- Concrete sample command body, publishing the client capability; used
to observe whether the body ran. -/
def exBodyHook : BHook :=
  fun s => ({ s with meta := metaSet s.meta "client" (.clientVal false) }, none)

/-- Concrete sample after hook that fails. -/
def exFailAfterHook : BHook :=
  fun s => (s, some (.remote "after hook failed"))

/-- The subcommands of the repo's debug command tree: update, peer and
run, with no pre-existing before hooks. -/
def demoSubCmds : List SubCmd :=
  [{ name := "update", before := none },
   { name := "peer", before := none },
   { name := "run", before := none }]

/-- The repo's debug command tree: one top-level command with the three
subcommands of `demoSubCmds` and no pre-existing hooks. -/
def demoApp : App :=
  { before := none, after := none,
    commands := [{ name := "debug", before := none, subcommands := demoSubCmds }] }


/-! Theorems about the embedded program. -/

/-- C4: the update-agent handler performs resolve Agent, Update, resolve
App, Healthcheck in that order (its trace is always a prefix of that
sequence); an Update error is returned immediately and Healthcheck (and
resolve App) never happen; a false Healthcheck after a successful Update
yields the distinct "labapp unhealthy" error; a true Healthcheck yields
success. -/
theorem updateAgentAction_spec (env : UpdateEnv) :
    (∃ n, (updateAgentAction env).1 =
      [Call.resolveAgent, Call.update, Call.resolveApp, Call.healthcheck].take n) ∧
    (∀ e, env.resolveAgentRes = none → env.updateRes = some e →
      updateAgentAction env = ([Call.resolveAgent, Call.update], some e) ∧
      Call.healthcheck ∉ (updateAgentAction env).1 ∧
      Call.resolveApp ∉ (updateAgentAction env).1) ∧
    (env.resolveAgentRes = none → env.updateRes = none →
      env.resolveAppRes = none → env.healthRes = false →
      updateAgentAction env =
        ([Call.resolveAgent, Call.update, Call.resolveApp, Call.healthcheck],
          some Err.labappUnhealthy)) ∧
    (env.resolveAgentRes = none → env.updateRes = none →
      env.resolveAppRes = none → env.healthRes = true →
      updateAgentAction env =
        ([Call.resolveAgent, Call.update, Call.resolveApp, Call.healthcheck],
          none)) := by
  obtain ⟨ra, ur, rp, hh⟩ := env
  refine ⟨?_, ?_, ?_, ?_⟩
  · cases ra with
    | some e => exact ⟨1, rfl⟩
    | none =>
      cases ur with
      | some e => exact ⟨2, rfl⟩
      | none =>
        cases rp with
        | some e => exact ⟨3, rfl⟩
        | none => cases hh <;> exact ⟨4, rfl⟩
  · intro e h1 h2
    simp only at h1 h2
    subst h1; subst h2
    refine ⟨rfl, ?_, ?_⟩ <;> simp [updateAgentAction]
  · intro h1 h2 h3 h4
    simp only at h1 h2 h3 h4
    subst h1; subst h2; subst h3; subst h4
    rfl
  · intro h1 h2 h3 h4
    simp only at h1 h2 h3 h4
    subst h1; subst h2; subst h3; subst h4
    rfl

/-- Witness for C4 at concrete environments: an Update failure stops the
handler before any App resolution or healthcheck, and the
unhealthy-after-update case returns the distinct error. -/
theorem updateAgentAction_spec_witness :
    (updateAgentAction ⟨none, some (Err.remote "update failed"), none, true⟩ =
      ([Call.resolveAgent, Call.update], some (Err.remote "update failed")) ∧
      Call.healthcheck ∉
        (updateAgentAction ⟨none, some (Err.remote "update failed"), none, true⟩).1 ∧
      Call.resolveApp ∉
        (updateAgentAction ⟨none, some (Err.remote "update failed"), none, true⟩).1) ∧
    updateAgentAction ⟨none, none, none, false⟩ =
      ([Call.resolveAgent, Call.update, Call.resolveApp, Call.healthcheck],
        some Err.labappUnhealthy) :=
  ⟨(updateAgentAction_spec _).2.1 (Err.remote "update failed") rfl rfl,
    (updateAgentAction_spec _).2.2.1 rfl rfl rfl rfl⟩

/-- C5: with a number of positional arguments different from two, the
run-task handler fails with the argument-validation error (of the spec's
InvalidArgument class) and its trace is empty — the App is never resolved
and no remote call is issued; with exactly two arguments it resolves the
App and (when resolution succeeds) dispatches Run with the Task built
from (first argument, second argument). -/
theorem runTaskAction_spec (env : RunTaskEnv) :
    (env.args.length ≠ 2 →
      runTaskAction env = ([], some Err.taskArgs) ∧
      isInvalidArgumentClass Err.taskArgs = true) ∧
    (∀ a b, env.args = [a, b] →
      (runTaskAction env).1.head? = some RCall.resolveApp ∧
      (env.resolveAppRes = none →
        runTaskAction env =
          ([RCall.resolveApp, RCall.run { type := a, subject := b }],
            env.runRes))) := by
  obtain ⟨args, ra, rr⟩ := env
  constructor
  · intro h
    simp only at h
    exact ⟨by simp [runTaskAction, h], rfl⟩
  · intro a b hargs
    simp only at hargs
    subst hargs
    constructor
    · cases ra with
      | some e => rfl
      | none => rfl
    · intro hra
      simp only at hra
      subst hra
      rfl

/-- Witness for C5 at concrete inputs: one positional argument fails
without a trace; two arguments dispatch the task built from them. -/
theorem runTaskAction_spec_witness :
    (runTaskAction ⟨["onlyType"], none, none⟩ = ([], some Err.taskArgs) ∧
      isInvalidArgumentClass Err.taskArgs = true) ∧
    runTaskAction ⟨["benchmark", "QmFoo"], none, none⟩ =
      ([RCall.resolveApp, RCall.run { type := "benchmark", subject := "QmFoo" }],
        none) :=
  ⟨(runTaskAction_spec _).1 (by decide),
    ((runTaskAction_spec _).2 "benchmark" "QmFoo" rfl).2 rfl⟩

/-- C6: the printer hook publishes the unix printer under
`Metadata["printer"]` when the `output` flag is "unix", the JSON printer
when it is "json", and for every other value returns the not-valid error
(of the spec's InvalidArgument class) leaving the state — in particular
the metadata — untouched, so no printer capability is published. -/
theorem printerHook_spec (s : InvState) :
    (s.cfg.output = "unix" →
      printerHook s =
        ({ s with meta := metaSet s.meta "printer" CapValue.printerUnix }, none)) ∧
    (s.cfg.output = "json" →
      printerHook s =
        ({ s with meta := metaSet s.meta "printer" CapValue.printerJSON }, none)) ∧
    (s.cfg.output ≠ "unix" → s.cfg.output ≠ "json" →
      printerHook s = (s, some (Err.outputNotValid s.cfg.output)) ∧
      isInvalidArgumentClass (Err.outputNotValid s.cfg.output) = true) := by
  refine ⟨?_, ?_, ?_⟩
  · intro h
    simp [printerHook, h]
  · intro h
    simp [printerHook, h]
  · intro h1 h2
    refine ⟨?_, rfl⟩
    simp only [printerHook]
    rw [if_neg h1, if_neg h2]

/-- Witness for C6 at concrete states: "json" publishes the JSON printer,
"table" is rejected without publishing anything. -/
theorem printerHook_spec_witness :
    printerHook
        { cfg := { logWriter := "console", logLevel := "info", output := "json" },
          meta := [], spanStarted := false, spanFinishCount := 0,
          closerCloseCount := 0 } =
      ({ cfg := { logWriter := "console", logLevel := "info", output := "json" },
          meta := [("printer", CapValue.printerJSON)], spanStarted := false,
          spanFinishCount := 0, closerCloseCount := 0 }, none) ∧
    printerHook
        { cfg := { logWriter := "console", logLevel := "info", output := "table" },
          meta := [], spanStarted := false, spanFinishCount := 0,
          closerCloseCount := 0 } =
      ({ cfg := { logWriter := "console", logLevel := "info", output := "table" },
          meta := [], spanStarted := false, spanFinishCount := 0,
          closerCloseCount := 0 }, some (Err.outputNotValid "table")) :=
  ⟨(printerHook_spec _).2.1 rfl, ((printerHook_spec _).2.2 (by decide) (by decide)).1⟩

/-- C7: `newLogger` fails — always with an error of the spec's
ConfigurationError class — exactly when the `log-writer` flag is neither
"console" nor "json" or the `log-level` flag does not parse; on success
the returned logger is bound to the sink selected by the `log-writer`
flag, carries the parsed level, and is returned with that writer. -/
theorem newLogger_spec (cfg : Config) :
    ((∃ e, newLogger cfg = .error e ∧ isConfigurationErrorClass e = true) ↔
      ((cfg.logWriter ≠ "console" ∧ cfg.logWriter ≠ "json") ∨
        parseLevel cfg.logLevel = none)) ∧
    (∀ lg out, newLogger cfg = .ok (lg, out) →
      lg.sink = out ∧
      ((cfg.logWriter = "console" ∧ out = Sink.consoleStderr) ∨
        (cfg.logWriter = "json" ∧ out = Sink.stderr)) ∧
      parseLevel cfg.logLevel = some lg.level) := by
  constructor
  · by_cases h1 : cfg.logWriter = "console"
    · cases hp : parseLevel cfg.logLevel with
      | none => simp [newLogger, writerSink, h1, hp, isConfigurationErrorClass]
      | some lv => simp [newLogger, writerSink, h1, hp]
    · by_cases h2 : cfg.logWriter = "json"
      · cases hp : parseLevel cfg.logLevel with
        | none => simp [newLogger, writerSink, h1, h2, hp, isConfigurationErrorClass]
        | some lv => simp [newLogger, writerSink, h1, h2, hp]
      · simp [newLogger, writerSink, h1, h2, isConfigurationErrorClass]
  · intro lg out hok
    by_cases h1 : cfg.logWriter = "console"
    · cases hp : parseLevel cfg.logLevel with
      | none => simp [newLogger, writerSink, h1, hp] at hok
      | some lv =>
          simp [newLogger, writerSink, h1, hp] at hok
          obtain ⟨rfl, rfl⟩ := hok
          exact ⟨rfl, Or.inl ⟨h1, rfl⟩, rfl⟩
    · by_cases h2 : cfg.logWriter = "json"
      · cases hp : parseLevel cfg.logLevel with
        | none => simp [newLogger, writerSink, h1, h2, hp] at hok
        | some lv =>
            simp [newLogger, writerSink, h1, h2, hp] at hok
            obtain ⟨rfl, rfl⟩ := hok
            exact ⟨rfl, Or.inr ⟨h2, rfl⟩, rfl⟩
      · simp [newLogger, writerSink, h1, h2] at hok

/-- Witness for C7 at concrete configurations: an unknown writer fails
with a ConfigurationError-class error, and ("console", "debug") builds a
console-sink logger at debug level. -/
theorem newLogger_spec_witness :
    (∃ e,
      newLogger { logWriter := "logfmt", logLevel := "info", output := "unix" } =
        .error e ∧ isConfigurationErrorClass e = true) ∧
    ({ sink := Sink.consoleStderr, level := Level.debugLvl } : Logger).sink =
        Sink.consoleStderr ∧
    parseLevel "debug" =
      some ({ sink := Sink.consoleStderr, level := Level.debugLvl } : Logger).level :=
  ⟨(newLogger_spec _).1.mpr (Or.inl (by decide)),
    ((newLogger_spec { logWriter := "console", logLevel := "debug", output := "unix" }).2
      { sink := Sink.consoleStderr, level := Level.debugLvl } Sink.consoleStderr rfl).1,
    ((newLogger_spec { logWriter := "console", logLevel := "debug", output := "unix" }).2
      { sink := Sink.consoleStderr, level := Level.debugLvl } Sink.consoleStderr rfl).2.2⟩

/-- C9: with the JAEGER_TRACE variable unset (empty), `getTracer` returns
the no-op tracer — which ships nothing over the network — paired with the
nop closer, whose `Close` returns nil, so the teardown's reporter-close
step succeeds; with the variable set (and the UDP transport constructed),
it returns the jaeger tracer reporting to that collector address. -/
theorem getTracer_spec (udpNew : String → Except String Unit)
    (remoteCloseRes : Option Err) :
    (getTracer udpNew "" = .ok .noop .nopCloser ∧
      closerClose remoteCloseRes CloserKind.nopCloser = none ∧
      tracerMakesNetworkCalls TracerKind.noop = false) ∧
    (∀ addr, addr ≠ "" → udpNew addr = .ok () →
      getTracer udpNew addr =
        .ok (.jaegerRemote addr) .remoteReporterCloser ∧
      tracerMakesNetworkCalls (TracerKind.jaegerRemote addr) = true) := by
  constructor
  · exact ⟨by simp [getTracer], rfl, rfl⟩
  · intro addr h hu
    exact ⟨by simp [getTracer, h, hu], rfl⟩

/-- Witness for C9 at concrete inputs: the empty variable yields the no-op
pair, a set collector address yields the remote jaeger pair. -/
theorem getTracer_spec_witness :
    (getTracer (fun _ => .ok ()) "" = .ok .noop .nopCloser ∧
      closerClose none CloserKind.nopCloser = none ∧
      tracerMakesNetworkCalls TracerKind.noop = false) ∧
    getTracer (fun _ => .ok ()) "collector:6831" =
      .ok (.jaegerRemote "collector:6831") .remoteReporterCloser :=
  ⟨(getTracer_spec (fun _ => .ok ()) none).1,
    ((getTracer_spec (fun _ => .ok ()) none).2 "collector:6831" (by decide) rfl).1⟩

/-- C10: when JAEGER_TRACE is set but constructing the UDP transport to
that address fails, `getTracer` panics with that failure — it never
returns a tracer/closer pair through the normal error-reporting path. -/
theorem getTracer_panics_on_transport_failure
    (udpNew : String → Except String Unit) (addr e : String)
    (ha : addr ≠ "") (hu : udpNew addr = .error e) :
    getTracer udpNew addr = .panicked e ∧
    ∀ t c, getTracer udpNew addr ≠ .ok t c := by
  have h : getTracer udpNew addr = .panicked e := by
    simp [getTracer, ha, hu]
  exact ⟨h, fun t c hc => by rw [h] at hc; exact TracerInit.noConfusion hc⟩

/-- Witness for C10: a transport-construction failure at a concrete
address aborts via panic. -/
theorem getTracer_panics_on_transport_failure_witness :
    getTracer (fun _ => .error "udp resolve failed") "collector:6831" =
      .panicked "udp resolve failed" :=
  (getTracer_panics_on_transport_failure (fun _ => .error "udp resolve failed")
    "collector:6831" "udp resolve failed" (by decide) rfl).1

/-- C2: running a chain built by `joinBefore` skips nil hooks, runs the
non-nil hooks in order with fail-fast error propagation (so appending a
later chain still runs the earlier hooks first, and nesting a joined
chain inside another — the code's composition pattern — is associative
and order-preserving), and when some hook fails, every later hook and the
command body never run while the state already produced — the
capabilities set by earlier hooks — is kept, not rolled back. -/
theorem joinBefore_spec :
    (∀ (rest : List (Option BHook)) (s : InvState),
      joinBefore (none :: rest) s = joinBefore rest s) ∧
    (∀ (xs ys : List (Option BHook)) (s : InvState),
      joinBefore (xs ++ ys) s = hookSeq (joinBefore xs) (joinBefore ys) s) ∧
    (∀ (xs rest : List (Option BHook)) (s : InvState),
      joinBefore (some (joinBefore xs) :: rest) s = joinBefore (xs ++ rest) s) ∧
    (∀ (xs : List (Option BHook)) (f : BHook) (ys : List (Option BHook))
      (s s' : InvState), joinBefore xs s = (s', none) →
      ∀ s'' e, f s' = (s'', some e) →
        ∀ body : BHook,
          hookSeq (joinBefore (xs ++ some f :: ys)) body s = (s'', some e)) := by
  have happ : ∀ (xs ys : List (Option BHook)) (s : InvState),
      joinBefore (xs ++ ys) s = hookSeq (joinBefore xs) (joinBefore ys) s := by
    intro xs
    induction xs with
    | nil => intro ys s; rfl
    | cons hd tl ih =>
      intro ys s
      cases hd with
      | none => exact ih ys s
      | some f =>
        show (match f s with
              | (s', some e) => (s', some e)
              | (s', none) => joinBeforeRun (tl ++ ys) s') = _
        cases hf : f s with
        | mk t eo =>
          cases eo with
          | none =>
            simp only [hookSeq, joinBefore, joinBeforeRun, hf]
            exact ih ys t
          | some e => simp [hookSeq, joinBefore, joinBeforeRun, hf]
  refine ⟨fun rest s => rfl, happ, ?_, ?_⟩
  · intro xs rest s
    rw [happ]
    show (match joinBefore xs s with
          | (s', some e) => (s', some e)
          | (s', none) => joinBeforeRun rest s') =
        hookSeq (joinBefore xs) (joinBefore rest) s
    simp only [hookSeq]
    cases hx : joinBefore xs s with
    | mk t eo => cases eo <;> rfl
  · intro xs f ys s s' hxs s'' e hf body
    have h1 : joinBefore (xs ++ some f :: ys) s = (s'', some e) := by
      rw [happ]
      simp only [hookSeq, joinBefore] at hxs ⊢
      rw [hxs]
      show (match f s' with
            | (t, some e') => (t, some e')
            | (t, none) => joinBeforeRun ys t) = _
      rw [hf]
    simp only [hookSeq, h1]

/-- Witness for C2 at concrete inputs: in the chain
[nil, ok-hook, failing hook, ok-hook] followed by a body, the nil hook is
skipped, the first hook's published printer capability survives (no
rollback), the chain stops at the failing hook with its error, and
neither the last hook nor the body runs. -/
theorem joinBefore_spec_witness :
    hookSeq
        (joinBefore [none, some exOkHook, some exFailHook, some exOkHook])
        exBodyHook initSt =
      ({ initSt with meta := metaSet initSt.meta "printer" CapValue.printerUnix },
        some (Err.remote "hook failed")) :=
  joinBefore_spec.2.2.2 [none, some exOkHook] exFailHook [some exOkHook] initSt
    ({ initSt with meta := metaSet initSt.meta "printer" CapValue.printerUnix })
    rfl
    ({ initSt with meta := metaSet initSt.meta "printer" CapValue.printerUnix })
    (Err.remote "hook failed") rfl exBodyHook

/-- C3: one instrumentation pass preserves the shape of the tree (same
number of commands, same total number N of subcommand nodes), replaces
the before hook of every subcommand node — and nothing else: top-level
command hooks and the app's own before hook are untouched — with the
wrapper that runs the pre-existing hook first and the tracing/logging
hook second, and installs exactly one wrapped top-level after hook; on a
tree whose commands have no subcommands it changes no before hook at all
and (being a total function) cannot fail. -/
theorem AttachAppContext_spec (closeRes : Option Err) (app : App) :
    ((AttachAppContext closeRes app).commands.length = app.commands.length ∧
      totalSubcommands (AttachAppContext closeRes app) = totalSubcommands app) ∧
    (∀ (i : Nat) (cmd : Cmd), app.commands[i]? = some cmd →
      ∃ cmd' : Cmd, (AttachAppContext closeRes app).commands[i]? = some cmd' ∧
        cmd'.name = cmd.name ∧ cmd'.before = cmd.before ∧
        cmd'.subcommands.length = cmd.subcommands.length ∧
        ∀ (j : Nat) (sc : SubCmd), cmd.subcommands[j]? = some sc →
          cmd'.subcommands[j]? =
            some { sc with before := some (wrapBefore sc.name sc.before) }) ∧
    ((AttachAppContext closeRes app).after =
        some (wrappedAfter app.after closeRes) ∧
      (AttachAppContext closeRes app).before = app.before) ∧
    (∀ name old s s', runOptHook old s = (s', none) →
      wrapBefore name old s = tracingBefore name s') ∧
    (∀ name old s s' e, runOptHook old s = (s', some e) →
      wrapBefore name old s = (s', some e)) ∧
    ((∀ cmd ∈ app.commands, cmd.subcommands = []) →
      (AttachAppContext closeRes app).commands = app.commands) := by
  refine ⟨⟨by simp [AttachAppContext], ?_⟩, ?_, ⟨rfl, rfl⟩, ?_, ?_, ?_⟩
  · simp [totalSubcommands, AttachAppContext, List.map_map, Function.comp_def]
  · intro i cmd h
    refine ⟨{ cmd with subcommands := cmd.subcommands.map fun sc =>
        { sc with before := some (wrapBefore sc.name sc.before) } },
      ?_, rfl, rfl, by simp, ?_⟩
    · simp [AttachAppContext, List.getElem?_map, h]
    · intro j sc hj
      simp [List.getElem?_map, hj]
  · intro name old s s' h
    cases old with
    | none =>
      simp [runOptHook] at h
      rw [← h]
      rfl
    | some f =>
      simp only [runOptHook] at h
      simp [wrapBefore, h]
  · intro name old s s' e h
    cases old with
    | none => simp [runOptHook] at h
    | some f =>
      simp only [runOptHook] at h
      simp [wrapBefore, h]
  · intro h
    have key : ∀ l : List Cmd, (∀ c ∈ l, c.subcommands = []) →
        l.map (fun cmd =>
          { cmd with subcommands := cmd.subcommands.map fun sc =>
            { sc with before := some (wrapBefore sc.name sc.before) } }) = l := by
      intro l
      induction l with
      | nil => intro _; rfl
      | cons c cs ih =>
        intro hl
        have hc : c.subcommands = [] := hl c (by simp)
        have hcs : ∀ d ∈ cs, d.subcommands = [] :=
          fun d hd => hl d (by simp [hd])
        cases c with
        | mk nm bf subs =>
          simp only at hc
          subst hc
          simp [ih hcs]
    exact key app.commands h

/-- Witness for C3 on the repo's debug tree: the pass maps the debug
command to one whose three subcommands all carry the wrapped hook, and a
wrapped hook over a nil pre-existing hook is just the tracing hook. -/
theorem AttachAppContext_spec_witness :
    (∃ cmd' : Cmd, (AttachAppContext none demoApp).commands[0]? = some cmd' ∧
      cmd'.name = "debug" ∧ cmd'.before = none ∧
      cmd'.subcommands.length = demoSubCmds.length ∧
      ∀ (j : Nat) (sc : SubCmd), demoSubCmds[j]? = some sc →
        cmd'.subcommands[j]? =
          some { sc with before := some (wrapBefore sc.name sc.before) }) ∧
    wrapBefore "update" none initSt = tracingBefore "update" initSt :=
  ⟨(AttachAppContext_spec none demoApp).2.1 0
      { name := "debug", before := none, subcommands := demoSubCmds } rfl,
    (AttachAppContext_spec none demoApp).2.2.2.1 "update" none initSt initSt rfl⟩

/-- Counterexample to C1 as stated: with a pre-existing top-level after
hook that returns an error, the teardown never runs — the span that the
before hook started is not finished and the reporter is not closed — and
the after hook's error is what the wrapper returns. -/
theorem wrappedAfter_skips_teardown_cex :
    (runInvocation (tracingBefore "update") exBodyHook
        (wrappedAfter (some exFailAfterHook) none) initSt).1.spanStarted = true ∧
    (runInvocation (tracingBefore "update") exBodyHook
        (wrappedAfter (some exFailAfterHook) none) initSt).1.spanFinishCount = 0 ∧
    (runInvocation (tracingBefore "update") exBodyHook
        (wrappedAfter (some exFailAfterHook) none) initSt).1.closerCloseCount = 0 ∧
    (runInvocation (tracingBefore "update") exBodyHook
        (wrappedAfter (some exFailAfterHook) none) initSt).2.2 =
      some (Err.remote "after hook failed") := by
  refine ⟨rfl, rfl, rfl, rfl⟩

/-- C1 (amended): the teardown — finish the span if one was started, then
close the reporter — runs exactly once after the command body whenever
the pre-existing top-level after hook is absent or returns no error,
regardless of whether the body succeeded, failed, or the before hook
failed, and the wrapper then returns the reporter-close result; when the
pre-existing after hook returns an error, that error is returned and the
teardown is skipped. -/
theorem wrappedAfter_teardown_spec :
    (∀ (before body : BHook) (after : Option BHook) (closeRes : Option Err)
        (s : InvState),
      (∀ t, (runOptHook after t).2 = none ∧
        ((runOptHook after t).1).closerCloseCount = t.closerCloseCount) →
      (∀ t, ((before t).1).closerCloseCount = t.closerCloseCount) →
      (∀ t, ((body t).1).closerCloseCount = t.closerCloseCount) →
      (runInvocation before body (wrappedAfter after closeRes) s).1.closerCloseCount
          = s.closerCloseCount + 1 ∧
      (runInvocation before body (wrappedAfter after closeRes) s).2.2 = closeRes) ∧
    (∀ (after : Option BHook) (closeRes : Option Err) (t t' : InvState) (e : Err),
      runOptHook after t = (t', some e) →
      wrappedAfter after closeRes t = (t', some e)) ∧
    (∀ (closeRes : Option Err) (t : InvState), t.spanStarted = true →
      teardownStep closeRes t =
        ({ t with
            spanFinishCount := t.spanFinishCount + 1
            closerCloseCount := t.closerCloseCount + 1 }, closeRes)) ∧
    (∀ (closeRes : Option Err) (t : InvState), t.spanStarted = false →
      teardownStep closeRes t =
        ({ t with closerCloseCount := t.closerCloseCount + 1 }, closeRes)) := by
  have hteardown : ∀ (closeRes : Option Err) (t : InvState),
      (teardownStep closeRes t).1.closerCloseCount = t.closerCloseCount + 1 ∧
      (teardownStep closeRes t).2 = closeRes := by
    intro closeRes t
    simp only [teardownStep]
    cases t.spanStarted <;> simp
  have hwrap : ∀ (after : Option BHook) (closeRes : Option Err) (t : InvState),
      (∀ u, (runOptHook after u).2 = none ∧
        ((runOptHook after u).1).closerCloseCount = u.closerCloseCount) →
      (wrappedAfter after closeRes t).1.closerCloseCount = t.closerCloseCount + 1 ∧
      (wrappedAfter after closeRes t).2 = closeRes := by
    intro after closeRes t hA
    cases after with
    | none => simpa [wrappedAfter] using hteardown closeRes t
    | some f =>
      have h1 := (hA t).1
      have h2 := (hA t).2
      simp only [runOptHook] at h1 h2
      cases hf : f t with
      | mk u eo =>
        rw [hf] at h1 h2
        simp only at h1 h2
        subst h1
        simp only [wrappedAfter, hf]
        exact ⟨by rw [(hteardown closeRes u).1, h2], (hteardown closeRes u).2⟩
  refine ⟨?_, ?_, ?_, ?_⟩
  · intro before body after closeRes s hA hB hC
    simp only [runInvocation]
    cases hb : before s with
    | mk s1 e1 =>
      have hb1 : s1.closerCloseCount = s.closerCloseCount := by
        have := hB s; rw [hb] at this; exact this
      cases e1 with
      | some e =>
        cases hw : wrappedAfter after closeRes s1 with
        | mk s2 ea =>
          have hx := hwrap after closeRes s1 hA
          rw [hw] at hx
          simp only at hx
          simp only [hw]
          exact ⟨by rw [hx.1, hb1], hx.2⟩
      | none =>
        cases hbo : body s1 with
        | mk s2 e2 =>
          have hb2 : s2.closerCloseCount = s1.closerCloseCount := by
            have := hC s1; rw [hbo] at this; exact this
          cases hw : wrappedAfter after closeRes s2 with
          | mk s3 ea =>
            have hx := hwrap after closeRes s2 hA
            rw [hw] at hx
            simp only at hx
            simp only [hbo, hw]
            exact ⟨by rw [hx.1, hb2, hb1], hx.2⟩
  · intro after closeRes t t' e h
    cases after with
    | none => simp [runOptHook] at h
    | some f =>
      simp only [runOptHook] at h
      simp [wrappedAfter, h]
  · intro closeRes t h
    simp [teardownStep, h]
  · intro closeRes t h
    simp [teardownStep, h]

/-- Witness for the amended C1 at concrete hooks: with no pre-existing
after hook, a body that fails, and a failing reporter close, the teardown
still runs exactly once and the wrapper returns the close error. -/
theorem wrappedAfter_teardown_spec_witness :
    (runInvocation exOkHook exFailHook
        (wrappedAfter none (some (Err.remote "close failed")))
        initSt).1.closerCloseCount = initSt.closerCloseCount + 1 ∧
    (runInvocation exOkHook exFailHook
        (wrappedAfter none (some (Err.remote "close failed")))
        initSt).2.2 = some (Err.remote "close failed") :=
  wrappedAfter_teardown_spec.1 exOkHook exFailHook none
    (some (Err.remote "close failed")) initSt
    (fun _ => ⟨rfl, rfl⟩) (fun _ => rfl) (fun _ => rfl)

/-- Counterexample to C8 as stated: setting the "context" capability when
the key is already set does not fail with a DuplicateCapability error —
the second set succeeds (nil error) and overwrites the stored value. -/
theorem capabilityStore_overwrite_cex :
    (setCapability
        (setCapability initSt "context"
          (CapValue.ctxVal { sink := Sink.stderr, level := Level.infoLvl } true)).1
        "context" CapValue.printerUnix).2 = none ∧
    metaGet
        (setCapability
          (setCapability initSt "context"
            (CapValue.ctxVal { sink := Sink.stderr, level := Level.infoLvl } true)).1
          "context" CapValue.printerUnix).1.meta "context" =
      some CapValue.printerUnix := by
  exact ⟨rfl, by decide⟩

/-- C8 (amended): setting a capability never fails — assignment into the
metadata map overwrites any existing value for the key — and reading the
"context" capability through `CommandContext` panics (unchecked type
assertion), rather than returning an error, both when the key is absent
and when the stored value has a different dynamic type; it returns the
stored value when it has the expected type. -/
theorem capabilityStore_spec :
    (∀ (s : InvState) (k : String) (v : CapValue),
      (setCapability s k v).2 = none ∧
      metaGet (setCapability s k v).1.meta k = some v) ∧
    (∀ m : Metadata, metaGet m "context" = none → CommandContext m = .panicked) ∧
    (∀ (m : Metadata) (v : CapValue), metaGet m "context" = some v →
      (∀ (lg : Logger) (sp : Bool), v ≠ .ctxVal lg sp) →
      CommandContext m = .panicked) ∧
    (∀ (m : Metadata) (lg : Logger) (sp : Bool),
      metaGet m "context" = some (.ctxVal lg sp) →
      CommandContext m = .ok lg sp) := by
  refine ⟨?_, ?_, ?_, ?_⟩
  · intro s k v
    refine ⟨rfl, ?_⟩
    simp [setCapability, metaGet, metaSet, List.lookup]
  · intro m h
    simp [CommandContext, h]
  · intro m v h hne
    cases v with
    | ctxVal lg sp => exact absurd rfl (hne lg sp)
    | printerUnix => simp [CommandContext, h]
    | printerJSON => simp [CommandContext, h]
    | clientVal b => simp [CommandContext, h]
  · intro m lg sp h
    simp [CommandContext, h]

/-- Witness for the amended C8 at concrete inputs: a set publishes its
value; reads panic on an absent key and on a value of the wrong type, and
return the context value when present. -/
theorem capabilityStore_spec_witness :
    ((setCapability initSt "printer" CapValue.printerUnix).2 = none ∧
      metaGet (setCapability initSt "printer" CapValue.printerUnix).1.meta
        "printer" = some CapValue.printerUnix) ∧
    CommandContext ([] : Metadata) = .panicked ∧
    CommandContext ([("context", CapValue.printerUnix)] : Metadata) = .panicked ∧
    CommandContext
        ([("context",
          CapValue.ctxVal { sink := Sink.stderr, level := Level.infoLvl } true)] :
          Metadata) =
      .ok { sink := Sink.stderr, level := Level.infoLvl } true :=
  ⟨capabilityStore_spec.1 initSt "printer" CapValue.printerUnix,
    capabilityStore_spec.2.1 ([] : Metadata) rfl,
    capabilityStore_spec.2.2.1 ([("context", CapValue.printerUnix)] : Metadata)
      CapValue.printerUnix (by decide) (fun lg sp h => CapValue.noConfusion h),
    capabilityStore_spec.2.2.2 _ _ _ (by decide)⟩
